import Mathlib

/-!
Verification development for the `resilience-lifecycle-dashboard` repository.

The algorithmic core of the repository is the `Solver` class in
`src/dashboard/dashboard.js`: a fixed-step forward-Euler integrator for the
coupled robustness/adaptivity ODE, together with its two derivative functions
`computeDrDt` and `computeDaDt`.

Modelling choices (shallow embedding of the JavaScript source):

* JavaScript numbers are IEEE doubles.  We model them as `JSNum`, exact
  rationals extended with a `nan` element, with the IEEE propagation and
  comparison rules the solver relies on (`nan` is absorbing for arithmetic,
  every `<=` comparison involving `nan` is `false`).  Rounding of doubles is
  not modelled; the spec states its arithmetic claims exactly.

* The reference script has three surface defects that the repository spec
  (design notes, §9) explicitly directs readers to treat as defects and to
  read with the intended meaning: `Array().append(x)` is the append of `x` to
  the sequence, the un-declared `delta_rob`/`delta_ada` are local variables of
  the loop body, and the stray `self.params` means `this.params` (no ambient
  global fallback).  The embedding below reads the loop that way; everything
  else (the loop guard, the order of the three appends, computing both deltas
  from the pre-update state before either variable is advanced, the update of
  `curr_time`) is translated line by line from `dashboard.js` lines 28-49.

* The `while (curr_time <= this.params.end)` loop need not terminate (the
  source performs no validation of `time_step`), so the loop is embedded with
  an explicit fuel argument: `none` means the loop is still running after
  `fuel` guard checks, i.e. the source diverges past that point.
-/

/-- A JavaScript number as used by the solver: an exact rational, or NaN.
(Infinities and rounding are not modelled; no operation of the solver can
produce an infinity from finite rational data in this model.) -/
inductive JSNum where
  | nan : JSNum
  | num : ℚ → JSNum
deriving DecidableEq, Repr

namespace JSNum

/-- JavaScript `+` on numbers: NaN is absorbing. -/
def jadd : JSNum → JSNum → JSNum
  | num a, num b => num (a + b)
  | _, _ => nan

/-- JavaScript `*` on numbers: NaN is absorbing. -/
def jmul : JSNum → JSNum → JSNum
  | num a, num b => num (a * b)
  | _, _ => nan

/-- JavaScript binary `-` on numbers: NaN is absorbing. -/
def jsub : JSNum → JSNum → JSNum
  | num a, num b => num (a - b)
  | _, _ => nan

/-- JavaScript `<=` on numbers: any comparison involving NaN is `false`. -/
def jle : JSNum → JSNum → Bool
  | num a, num b => decide (a ≤ b)
  | _, _ => false

instance : Add JSNum := ⟨jadd⟩
instance : Mul JSNum := ⟨jmul⟩
instance : Sub JSNum := ⟨jsub⟩
instance instOfNatJSNum (n : ℕ) : OfNat JSNum n := ⟨num (OfNat.ofNat n)⟩

end JSNum

/-- The `params` dictionary handed to the `Solver` constructor: the eight
model coefficients, the integration step `time_step`, and the end time `end`
(a Lean keyword, hence the guillemets).  All fields are JavaScript numbers. -/
structure ModelParameters where
  alpha_r : JSNum
  alpha_a : JSNum
  q : JSNum
  gamma_r0 : JSNum
  gamma_r2 : JSNum
  gamma_a : JSNum
  beta_a : JSNum
  beta_r : JSNum
  time_step : JSNum
  «end» : JSNum
deriving DecidableEq, Repr

/-- The `initial_values` dictionary: the ODE's solution at the start time. -/
structure InitialState where
  robustness : JSNum
  adaptivity : JSNum
  time : JSNum
deriving DecidableEq, Repr

/-- The solution object built by the `solution` getter: three aligned
sequences (robustness, adaptivity, time), one entry per evaluation point. -/
structure Trajectory where
  robustness : List JSNum
  adaptivity : List JSNum
  time : List JSNum
deriving DecidableEq, Repr

namespace Trajectory

/-- The three `solution.<column>.append(curr_<x>)` calls of one loop
iteration: push one sample onto the end of each of the three sequences. -/
def push (sol : Trajectory) (r a t : JSNum) : Trajectory :=
  { robustness := sol.robustness ++ [r]
    adaptivity := sol.adaptivity ++ [a]
    time := sol.time ++ [t] }

/-- Column-wise concatenation of two solution objects (proof device). -/
def cat (s u : Trajectory) : Trajectory :=
  { robustness := s.robustness ++ u.robustness
    adaptivity := s.adaptivity ++ u.adaptivity
    time := s.time ++ u.time }

/-- The empty solution object `{robustness: Array(), adaptivity: Array(),
time: Array()}` the getter starts from. -/
def empty : Trajectory := ⟨[], [], []⟩

end Trajectory

/-- `computeDrDt(rob, ada)` of `dashboard.js` (lines 61-70):
`alpha_r*(1 - q) + gamma_r0*rob - gamma_r2*rob*rob*rob - beta_a * ada`,
read from `this.params`, in JavaScript number arithmetic.  A pure function:
it reads the parameter fields and its two arguments and touches nothing
else. -/
def computeDrDt (p : ModelParameters) (rob ada : JSNum) : JSNum :=
  p.alpha_r * (1 - p.q) + p.gamma_r0 * rob - p.gamma_r2 * rob * rob * rob
    - p.beta_a * ada

/-- `computeDaDt(rob, ada)` of `dashboard.js` (lines 73-82):
`alpha_a*q - gamma_a*ada + beta_r*rob`, read from `this.params`.  A pure
function like `computeDrDt`. -/
def computeDaDt (p : ModelParameters) (rob ada : JSNum) : JSNum :=
  p.alpha_a * p.q - p.gamma_a * ada + p.beta_r * rob

/-- The body of the `while (curr_time <= this.params.end)` loop of the
`solution` getter (`dashboard.js` lines 33-45), with explicit fuel: each
recursive call consumes one unit of fuel per guard check, and `none` means
the loop is still running when the fuel runs out (the source diverges past
`fuel` iterations).  One iteration appends the current sample to the three
sequences, computes `delta_rob` and `delta_ada` from the *pre-update*
`curr_rob, curr_ada` (simultaneous update), and then advances all three
state variables. -/
def eulerLoop (p : ModelParameters) :
    ℕ → JSNum → JSNum → JSNum → Trajectory → Option Trajectory
  | 0, _, _, _, _ => none
  | fuel + 1, curr_rob, curr_ada, curr_time, sol =>
    if JSNum.jle curr_time p.«end» then
      let sol' := sol.push curr_rob curr_ada curr_time
      let delta_rob := computeDrDt p curr_rob curr_ada * p.time_step
      let delta_ada := computeDaDt p curr_rob curr_ada * p.time_step
      eulerLoop p fuel (curr_rob + delta_rob) (curr_ada + delta_ada)
        (curr_time + p.time_step) sol'
    else some sol

/-- The `solution` getter (`dashboard.js` lines 20-50): initialize
`curr_rob, curr_ada, curr_time` from `initial_values`, run the Euler loop
starting from an empty solution object, and return the solution.  `none`
means the getter has not returned after `fuel` loop-guard checks. -/
def solution (p : ModelParameters) (init : InitialState) (fuel : ℕ) :
    Option Trajectory :=
  eulerLoop p fuel init.robustness init.adaptivity init.time Trajectory.empty

/-- The `Solver` class: the constructor stores `params` and `initial_values`
unvalidated; all attributes are intended for the user to change externally. -/
structure Solver where
  params : ModelParameters
  initial_values : InitialState
deriving DecidableEq, Repr

/-- One invocation of the `solution` getter on a `Solver` object, returning
the produced value together with the solver state after the call.  The getter
body assigns only to its local variables (`curr_rob`, `curr_ada`,
`curr_time`, `delta_rob`, `delta_ada`) and to the freshly allocated
`solution` object; it never writes `this.params` or `this.initial_values`,
so the post-call state is the pre-call state, and the returned solution
object is a fresh value no later call can reach back into. -/
def solutionCall (s : Solver) (fuel : ℕ) : Option Trajectory × Solver :=
  (solution s.params s.initial_values fuel, s)

/-- The simultaneous update of one loop iteration, as a function on the
`(curr_rob, curr_ada)` state pair: both deltas are computed from the same
pre-update pair. -/
def eulerStep (p : ModelParameters) (s : JSNum × JSNum) : JSNum × JSNum :=
  (s.1 + computeDrDt p s.1 s.2 * p.time_step,
   s.2 + computeDaDt p s.1 s.2 * p.time_step)

/-- The solution object recorded by `n` loop iterations from state `(r, a)`
at time `t0`, with time step `dt`: sample `k` is the `k`-fold `eulerStep`
image of `(r, a)` at time `t0 + k*dt`. -/
def trajFrom (p : ModelParameters) (r a : JSNum) (t0 dt : ℚ) (n : ℕ) :
    Trajectory :=
  { robustness := (List.range n).map fun k => ((eulerStep p)^[k] (r, a)).1
    adaptivity := (List.range n).map fun k => ((eulerStep p)^[k] (r, a)).2
    time := (List.range n).map fun k : ℕ => JSNum.num (t0 + (k : ℚ) * dt) }

/-- Number of loop iterations a run performs when the step is a positive
rational `dt`: zero when the very first guard check fails (NaN start time,
NaN end time, or a start time beyond `end`), and `⌊(end - t0)/dt⌋ + 1`
otherwise. -/
def iterCount (p : ModelParameters) (init : InitialState) (dt : ℚ) : ℕ :=
  match init.time, p.«end» with
  | JSNum.num t0, JSNum.num e =>
    if t0 ≤ e then (Int.floor ((e - t0) / dt)).toNat + 1 else 0
  | _, _ => 0

/-- The solution object of a terminating run with positive rational step. -/
def solTraj (p : ModelParameters) (init : InitialState) (dt : ℚ) :
    Trajectory :=
  match init.time with
  | JSNum.num t0 =>
    trajFrom p init.robustness init.adaptivity t0 dt (iterCount p init dt)
  | JSNum.nan => Trajectory.empty

/-- The concrete scenario of the spec (§8, "Concrete scenario"):
`alpha_r=1, alpha_a=1, q=0.5`, all other coefficients `0`, `time_step=1`,
`end=2`. -/
def scenarioParams : ModelParameters :=
  { alpha_r := 1, alpha_a := 1, q := JSNum.num (1/2), gamma_r0 := 0
    gamma_r2 := 0, gamma_a := 0, beta_a := 0, beta_r := 0
    time_step := 1, «end» := 2 }

/-- The scenario's initial state `(robustness=0, adaptivity=0, time=0)`. -/
def scenarioInit : InitialState := ⟨0, 0, 0⟩

/-- Parameters with the invalid step `time_step = 0` and `end = 1`. -/
def zeroStepParams : ModelParameters :=
  { alpha_r := 1, alpha_a := 1, q := JSNum.num (1/2), gamma_r0 := 1
    gamma_r2 := 1, gamma_a := 1, beta_a := 1, beta_r := 1
    time_step := 0, «end» := 1 }

/-- Parameters with the invalid step `time_step = -1` and `end = 1`. -/
def negStepParams : ModelParameters :=
  { alpha_r := 1, alpha_a := 1, q := JSNum.num (1/2), gamma_r0 := 1
    gamma_r2 := 1, gamma_a := 1, beta_a := 1, beta_r := 1
    time_step := JSNum.num (-1), «end» := 1 }

/-- Parameters whose `time_step` is NaN, with `end = 1`. -/
def nanStepParams : ModelParameters :=
  { alpha_r := 1, alpha_a := 1, q := JSNum.num (1/2), gamma_r0 := 1
    gamma_r2 := 1, gamma_a := 1, beta_a := 1, beta_r := 1
    time_step := JSNum.nan, «end» := 1 }

/-- The initial state `(robustness=0, adaptivity=0, time=0)`. -/
def originInit : InitialState := ⟨0, 0, 0⟩

/-- The trajectory the spec's §8 scenario expects:
`robustness = [0, 0.5, 1.0]`, `adaptivity = [0, 0.5, 1.0]`,
`time = [0, 1, 2]`. -/
def scenarioTraj : Trajectory :=
  ⟨[0, JSNum.num (1/2), 1], [0, JSNum.num (1/2), 1], [0, 1, 2]⟩

/-- Parameters with every coupling coefficient zero (so both derivatives
vanish everywhere), `time_step = 1`, `end = 2`. -/
def fixedParams : ModelParameters :=
  { alpha_r := 0, alpha_a := 0, q := JSNum.num (1/2), gamma_r0 := 0
    gamma_r2 := 0, gamma_a := 0, beta_a := 0, beta_r := 0
    time_step := 1, «end» := 2 }

/-- An initial state `(robustness=3, adaptivity=4, time=0)` that is a fixed
point of `fixedParams`. -/
def fixedInit : InitialState := ⟨JSNum.num 3, JSNum.num 4, 0⟩

/-- The constant trajectory a `fixedParams` run produces from `fixedInit`. -/
def fixedTraj : Trajectory :=
  ⟨[JSNum.num 3, JSNum.num 3, JSNum.num 3],
   [JSNum.num 4, JSNum.num 4, JSNum.num 4], [0, 1, 2]⟩

/-- Parameters like the scenario's but with `end = 0`, so a run from
`originInit` starts exactly at the end time. -/
def boundaryParams : ModelParameters :=
  { alpha_r := 1, alpha_a := 1, q := JSNum.num (1/2), gamma_r0 := 0
    gamma_r2 := 0, gamma_a := 0, beta_a := 0, beta_r := 0
    time_step := 1, «end» := 0 }

/-! ### Basic lemmas about the JavaScript number model -/

namespace JSNum

theorem add_def (a b : JSNum) : a + b = jadd a b := rfl

theorem mul_def (a b : JSNum) : a * b = jmul a b := rfl

theorem sub_def (a b : JSNum) : a - b = jsub a b := rfl

theorem ofNat_def (n : ℕ) : (OfNat.ofNat n : JSNum) = num (OfNat.ofNat n) :=
  rfl

theorem num_add (a b : ℚ) : num a + num b = num (a + b) := rfl

theorem num_mul (a b : ℚ) : num a * num b = num (a * b) := rfl

theorem num_sub (a b : ℚ) : num a - num b = num (a - b) := rfl

/-- Adding the number zero is the identity, also on NaN. -/
theorem add_num_zero (a : JSNum) : a + num 0 = a := by
  cases a <;> simp [add_def, jadd]

/-- Multiplying by NaN yields NaN, whatever the left operand. -/
theorem mul_nan (a : JSNum) : a * nan = nan := by
  cases a <;> rfl

/-- Adding NaN yields NaN, whatever the left operand. -/
theorem add_nan (a : JSNum) : a + nan = nan := by
  cases a <;> rfl

/-- A `<=` comparison whose left operand is NaN is false. -/
theorem nan_jle (b : JSNum) : jle nan b = false := rfl

/-- A `<=` comparison whose right operand is NaN is false. -/
theorem jle_nan_right (a : JSNum) : jle a nan = false := by
  cases a <;> rfl

end JSNum

namespace Trajectory

theorem cat_empty_left (u : Trajectory) : cat empty u = u := by
  cases u; rfl

theorem cat_empty_right (s : Trajectory) : cat s empty = s := by
  cases s; simp [cat, empty]

theorem cat_assoc (s u v : Trajectory) : cat (cat s u) v = cat s (cat u v) := by
  cases s; cases u; cases v; simp [cat]

theorem push_eq_cat (s : Trajectory) (r a t : JSNum) :
    push s r a t = cat s ⟨[r], [a], [t]⟩ := rfl

end Trajectory

/-! ### Characterization of terminating runs

`eulerStep` is the state transformer of one loop-body execution, and
`trajFrom p r a t0 dt n` is the solution object produced by `n` consecutive
loop iterations started at state `(r, a)` and time `t0` with a rational step
`dt`.  The lemmas below show that every terminating run of `eulerLoop`
produces such an object. -/

theorem eulerLoop_exit (p : ModelParameters) (fuel : ℕ) (r a t : JSNum)
    (sol : Trajectory) (h : JSNum.jle t p.«end» = false) :
    eulerLoop p (fuel + 1) r a t sol = some sol := by
  simp [eulerLoop, h]

theorem eulerLoop_enter (p : ModelParameters) (fuel : ℕ) (r a t : JSNum)
    (sol : Trajectory) (h : JSNum.jle t p.«end» = true) :
    eulerLoop p (fuel + 1) r a t sol =
      eulerLoop p fuel (r + computeDrDt p r a * p.time_step)
        (a + computeDaDt p r a * p.time_step) (t + p.time_step)
        (sol.push r a t) := by
  simp [eulerLoop, h]

theorem trajFrom_zero (p : ModelParameters) (r a : JSNum) (t0 dt : ℚ) :
    trajFrom p r a t0 dt 0 = Trajectory.empty := by
  simp [trajFrom, Trajectory.empty]

theorem trajFrom_succ (p : ModelParameters) (r a : JSNum) (t0 dt : ℚ) (n : ℕ) :
    trajFrom p r a t0 dt (n + 1) =
      Trajectory.cat ⟨[r], [a], [JSNum.num t0]⟩
        (trajFrom p (eulerStep p (r, a)).1 (eulerStep p (r, a)).2
          (t0 + dt) dt n) := by
  have htime : (fun k : ℕ => JSNum.num (t0 + (k + 1 : ℕ) * dt)) =
      fun k : ℕ => JSNum.num (t0 + dt + k * dt) := by
    funext k
    congr 1
    push_cast
    ring
  simp only [trajFrom, Trajectory.cat, List.range_succ_eq_map, List.map_cons,
    List.map_map, List.singleton_append, Trajectory.mk.injEq]
  refine ⟨?_, ?_, ?_⟩
  · simp [Function.comp_def, Nat.succ_eq_add_one, Function.iterate_succ_apply,
      Prod.mk.eta]
  · simp [Function.comp_def, Nat.succ_eq_add_one, Function.iterate_succ_apply,
      Prod.mk.eta]
  · simp only [Function.comp_def, Nat.succ_eq_add_one]
    rw [htime]
    norm_num

/-- A run with enough fuel to see the guard fail: if the guard holds for the
first `n` checks and fails at check `n`, the loop returns the accumulator
extended by exactly the `n` recorded samples. -/
theorem eulerLoop_complete (p : ModelParameters) (dt e : ℚ)
    (hstep : p.time_step = JSNum.num dt) (hend : p.«end» = JSNum.num e) :
    ∀ (n : ℕ) (r a : JSNum) (t0 : ℚ) (sol : Trajectory) (fuel : ℕ),
      n < fuel → (∀ k : ℕ, k < n → t0 + k * dt ≤ e) → e < t0 + n * dt →
      eulerLoop p fuel r a (JSNum.num t0) sol =
        some (sol.cat (trajFrom p r a t0 dt n)) := by
  intro n
  induction n with
  | zero =>
    intro r a t0 sol fuel hf _ hgt
    obtain ⟨f, rfl⟩ : ∃ f, fuel = f + 1 := ⟨fuel - 1, by omega⟩
    have hgt' : ¬ t0 ≤ e := by
      push_cast at hgt
      linarith
    have hle : JSNum.jle (JSNum.num t0) p.«end» = false := by
      rw [hend]
      simpa [JSNum.jle] using hgt'
    rw [eulerLoop_exit p f r a _ sol hle, trajFrom_zero,
      Trajectory.cat_empty_right]
  | succ n ih =>
    intro r a t0 sol fuel hf hguard hgt
    obtain ⟨f, rfl⟩ : ∃ f, fuel = f + 1 := ⟨fuel - 1, by omega⟩
    have h0 : t0 ≤ e := by simpa using hguard 0 (by omega)
    have hle : JSNum.jle (JSNum.num t0) p.«end» = true := by
      rw [hend]
      simpa [JSNum.jle] using h0
    rw [eulerLoop_enter p f r a _ sol hle]
    have ht : (JSNum.num t0) + p.time_step = JSNum.num (t0 + dt) := by
      rw [hstep]
      rfl
    rw [ht]
    rw [ih (r + computeDrDt p r a * p.time_step)
      (a + computeDaDt p r a * p.time_step) (t0 + dt)
      (sol.push r a (JSNum.num t0)) f (by omega)
      (by
        intro k hk
        have := hguard (k + 1) (by omega)
        push_cast at this ⊢
        linarith)
      (by
        push_cast at hgt ⊢
        linarith)]
    rw [trajFrom_succ, Trajectory.push_eq_cat, Trajectory.cat_assoc]
    rfl

/-- A run whose guard holds at every fuelled check never returns: the loop
is still running when the fuel runs out. -/
theorem eulerLoop_spin (p : ModelParameters) (dt e : ℚ)
    (hstep : p.time_step = JSNum.num dt) (hend : p.«end» = JSNum.num e) :
    ∀ (fuel : ℕ) (r a : JSNum) (t0 : ℚ) (sol : Trajectory),
      (∀ k : ℕ, k < fuel → t0 + k * dt ≤ e) →
      eulerLoop p fuel r a (JSNum.num t0) sol = none := by
  intro fuel
  induction fuel with
  | zero =>
    intro r a t0 sol _
    rfl
  | succ f ih =>
    intro r a t0 sol hguard
    have h0 : t0 ≤ e := by simpa using hguard 0 (by omega)
    have hle : JSNum.jle (JSNum.num t0) p.«end» = true := by
      rw [hend]
      simpa [JSNum.jle] using h0
    rw [eulerLoop_enter p f r a _ sol hle]
    have ht : (JSNum.num t0) + p.time_step = JSNum.num (t0 + dt) := by
      rw [hstep]
      rfl
    rw [ht]
    apply ih
    intro k hk
    have := hguard (k + 1) (by omega)
    push_cast at this ⊢
    linarith

/-- With `N = ⌊(e - t0)/dt⌋ + 1` and `t0 ≤ e`, the loop guard holds at the
first `N` sampled times and fails at time `t0 + N*dt`. -/
theorem guard_facts (t0 e dt : ℚ) (hdt : 0 < dt) (h : t0 ≤ e) :
    (∀ k : ℕ, k < (Int.floor ((e - t0) / dt)).toNat + 1 →
      t0 + (k : ℚ) * dt ≤ e) ∧
    e < t0 + (((Int.floor ((e - t0) / dt)).toNat + 1 : ℕ) : ℚ) * dt := by
  have hx : (0 : ℚ) ≤ (e - t0) / dt := div_nonneg (by linarith) hdt.le
  have hfl : ((Int.floor ((e - t0) / dt)).toNat : ℤ) =
      Int.floor ((e - t0) / dt) :=
    Int.toNat_of_nonneg (Int.floor_nonneg.2 hx)
  have hcancel : (e - t0) / dt * dt = e - t0 := div_mul_cancel₀ _ hdt.ne'
  constructor
  · intro k hk
    have hk' : (k : ℤ) ≤ Int.floor ((e - t0) / dt) := by omega
    have hkq : (k : ℚ) ≤ (e - t0) / dt := by
      calc (k : ℚ) ≤ ((Int.floor ((e - t0) / dt) : ℤ) : ℚ) := by
            exact_mod_cast hk'
        _ ≤ (e - t0) / dt := Int.floor_le _
    have := mul_le_mul_of_nonneg_right hkq hdt.le
    rw [hcancel] at this
    linarith
  · have hflq : ((Int.floor ((e - t0) / dt)).toNat : ℚ) =
        ((Int.floor ((e - t0) / dt) : ℤ) : ℚ) := by
      exact_mod_cast hfl
    have hlt : (e - t0) / dt <
        (((Int.floor ((e - t0) / dt)).toNat + 1 : ℕ) : ℚ) := by
      have h1 := Int.lt_floor_add_one ((e - t0) / dt)
      push_cast
      rw [hflq]
      linarith
    have := mul_lt_mul_of_pos_right hlt hdt
    rw [hcancel] at this
    linarith

/-- Characterization of the `solution` getter for a positive rational
`time_step`: the run with `iterCount + 1` units of fuel terminates and
returns `solTraj`, and every terminating run (any fuel) returns `solTraj`. -/
theorem solution_char (p : ModelParameters) (init : InitialState) (dt : ℚ)
    (hstep : p.time_step = JSNum.num dt) (hdt : 0 < dt) :
    solution p init (iterCount p init dt + 1) = some (solTraj p init dt) ∧
    ∀ (fuel : ℕ) (traj : Trajectory),
      solution p init fuel = some traj → traj = solTraj p init dt := by
  cases hits : init.time with
  | nan =>
    have hexit : ∀ (f : ℕ) (sol : Trajectory),
        eulerLoop p (f + 1) init.robustness init.adaptivity JSNum.nan sol =
          some sol :=
      fun f sol => eulerLoop_exit p f _ _ _ sol (JSNum.nan_jle _)
    constructor
    · unfold solution
      rw [hits, hexit]
      simp [solTraj, hits]
    · intro fuel traj htr
      unfold solution at htr
      rw [hits] at htr
      cases fuel with
      | zero => cases htr
      | succ f =>
        rw [hexit] at htr
        simp [solTraj, hits]
        exact (Option.some.inj htr).symm
  | num t0 =>
    cases hend : p.«end» with
    | nan =>
      have hle : JSNum.jle (JSNum.num t0) p.«end» = false := by
        rw [hend]
        exact JSNum.jle_nan_right _
      have hiter : iterCount p init dt = 0 := by
        simp [iterCount, hits, hend]
      constructor
      · unfold solution
        rw [hits, hiter, eulerLoop_exit p 0 _ _ _ _ hle]
        simp [solTraj, hits, hiter, trajFrom_zero]
      · intro fuel traj htr
        unfold solution at htr
        rw [hits] at htr
        cases fuel with
        | zero => cases htr
        | succ f =>
          rw [eulerLoop_exit p f _ _ _ _ hle] at htr
          simp [solTraj, hits, hiter, trajFrom_zero]
          exact (Option.some.inj htr).symm
    | num e =>
      by_cases hte : t0 ≤ e
      · obtain ⟨hg1, hg2⟩ := guard_facts t0 e dt hdt hte
        have hiter : iterCount p init dt =
            (Int.floor ((e - t0) / dt)).toNat + 1 := by
          simp [iterCount, hits, hend, hte]
        have hcomp : ∀ fuel : ℕ, (Int.floor ((e - t0) / dt)).toNat + 1 < fuel →
            solution p init fuel = some (solTraj p init dt) := by
          intro fuel hf
          unfold solution
          rw [hits, eulerLoop_complete p dt e hstep hend
            ((Int.floor ((e - t0) / dt)).toNat + 1) init.robustness
            init.adaptivity t0 Trajectory.empty fuel hf hg1 hg2,
            Trajectory.cat_empty_left]
          simp [solTraj, hits, hiter]
        constructor
        · exact hcomp (iterCount p init dt + 1) (by omega)
        · intro fuel traj htr
          by_cases hfuel : (Int.floor ((e - t0) / dt)).toNat + 1 < fuel
          · rw [hcomp fuel hfuel] at htr
            exact (Option.some.inj htr).symm
          · exfalso
            push_neg at hfuel
            have hnone : solution p init fuel = none := by
              unfold solution
              rw [hits]
              exact eulerLoop_spin p dt e hstep hend fuel _ _ t0 _
                (fun k hk => hg1 k (by omega))
            rw [hnone] at htr
            cases htr
      · have hle : JSNum.jle (JSNum.num t0) p.«end» = false := by
          rw [hend]
          simpa [JSNum.jle] using hte
        have hiter : iterCount p init dt = 0 := by
          simp [iterCount, hits, hend, hte]
        constructor
        · unfold solution
          rw [hits, hiter, eulerLoop_exit p 0 _ _ _ _ hle]
          simp [solTraj, hits, hiter, trajFrom_zero]
        · intro fuel traj htr
          unfold solution at htr
          rw [hits] at htr
          cases fuel with
          | zero => cases htr
          | succ f =>
            rw [eulerLoop_exit p f _ _ _ _ hle] at htr
            simp [solTraj, hits, hiter, trajFrom_zero]
            exact (Option.some.inj htr).symm

theorem get?_range_eq (n i : ℕ) :
    (List.range n).get? i = if i < n then some i else none := by
  by_cases h : i < n
  · rw [if_pos h, List.get?_range h]
  · rw [if_neg h]
    exact List.get?_len_le (by simpa using Nat.le_of_not_lt h)

theorem trajFrom_robustness_get? (p : ModelParameters) (r a : JSNum)
    (t0 dt : ℚ) (n i : ℕ) :
    (trajFrom p r a t0 dt n).robustness.get? i =
      if i < n then some (((eulerStep p)^[i] (r, a)).1) else none := by
  simp only [trajFrom, List.get?_map, get?_range_eq]
  by_cases h : i < n <;> simp [h]

theorem trajFrom_adaptivity_get? (p : ModelParameters) (r a : JSNum)
    (t0 dt : ℚ) (n i : ℕ) :
    (trajFrom p r a t0 dt n).adaptivity.get? i =
      if i < n then some (((eulerStep p)^[i] (r, a)).2) else none := by
  simp only [trajFrom, List.get?_map, get?_range_eq]
  by_cases h : i < n <;> simp [h]

theorem trajFrom_time_get? (p : ModelParameters) (r a : JSNum)
    (t0 dt : ℚ) (n i : ℕ) :
    (trajFrom p r a t0 dt n).time.get? i =
      if i < n then some (JSNum.num (t0 + (i : ℚ) * dt)) else none := by
  simp only [trajFrom, List.get?_map, get?_range_eq]
  by_cases h : i < n <;> simp [h]

theorem trajFrom_lengths (p : ModelParameters) (r a : JSNum)
    (t0 dt : ℚ) (n : ℕ) :
    (trajFrom p r a t0 dt n).robustness.length = n ∧
    (trajFrom p r a t0 dt n).adaptivity.length = n ∧
    (trajFrom p r a t0 dt n).time.length = n := by
  simp [trajFrom]

/-- With a non-positive rational step and a start time not beyond `end`, the
integration loop never terminates: no amount of fuel makes the getter
return.  (With `dt = 0` the time never advances; with `dt < 0` it runs
backward; either way the guard `curr_time <= end` never becomes false.) -/
theorem solution_diverges_nonpos_step (p : ModelParameters)
    (init : InitialState) (dt t0 e : ℚ)
    (hstep : p.time_step = JSNum.num dt) (hdt : dt ≤ 0)
    (hits : init.time = JSNum.num t0) (hend : p.«end» = JSNum.num e)
    (hte : t0 ≤ e) : ∀ fuel : ℕ, solution p init fuel = none := by
  intro fuel
  unfold solution
  rw [hits]
  apply eulerLoop_spin p dt e hstep hend
  intro k _
  have hknn : (0 : ℚ) ≤ (k : ℚ) := Nat.cast_nonneg k
  nlinarith

/-- Sanity check of the embedding against the spec's §8 concrete scenario:
both derivatives are constant `0.5`, so the solver returns
`robustness = [0, 0.5, 1.0]`, `adaptivity = [0, 0.5, 1.0]`,
`time = [0, 1, 2]`. -/
theorem scenario_solution :
    solution scenarioParams scenarioInit 4 = some scenarioTraj := by
  norm_num [solution, eulerLoop, Trajectory.push, Trajectory.empty,
    computeDrDt, computeDaDt, scenarioParams, scenarioInit, scenarioTraj,
    JSNum.jle, JSNum.add_def, JSNum.mul_def, JSNum.sub_def, JSNum.jadd,
    JSNum.jmul, JSNum.jsub, JSNum.ofNat_def]
  exact ⟨rfl, rfl⟩

/-- With every coefficient zero both derivatives are identically zero, so
the run from `(3, 4, 0)` stays at `(3, 4)` for the three sampled times. -/
theorem fixed_solution :
    solution fixedParams fixedInit 4 = some fixedTraj := by
  norm_num [solution, eulerLoop, Trajectory.push, Trajectory.empty,
    computeDrDt, computeDaDt, fixedParams, fixedInit, fixedTraj,
    JSNum.jle, JSNum.add_def, JSNum.mul_def, JSNum.sub_def, JSNum.jadd,
    JSNum.jmul, JSNum.jsub, JSNum.ofNat_def]
  exact ⟨rfl, rfl⟩

/-- Unfolding of `solTraj` for a rational start time. -/
theorem solTraj_eq_num (p : ModelParameters) (init : InitialState)
    (dt t0 : ℚ) (hits : init.time = JSNum.num t0) :
    solTraj p init dt =
      trajFrom p init.robustness init.adaptivity t0 dt
        (iterCount p init dt) := by
  unfold solTraj
  rw [hits]

/-- Unfolding of `solTraj` for a NaN start time. -/
theorem solTraj_eq_nan (p : ModelParameters) (init : InitialState)
    (dt : ℚ) (hits : init.time = JSNum.nan) :
    solTraj p init dt = Trajectory.empty := by
  unfold solTraj
  rw [hits]

/-! ### The claims -/

/-- Claim C1: the spec requires that a stored `time_step <= 0` makes the
solution operation fail with an `InvalidParameter` error before entering the
integration loop.  The code violates this: `dashboard.js` performs no
validation of `time_step` whatsoever and has no error channel, and with
`time_step = 0` (and likewise `-1`), `end = 1` and initial state
`(0, 0, 0)` the integration loop never terminates — for every fuel bound the
run is still going — instead of failing fast.  So the claim describes the
spec's mandated behavior, not the code's. -/
theorem c1_no_validation_nonpos_step_diverges :
    (∀ fuel : ℕ, solution zeroStepParams originInit fuel = none) ∧
    (∀ fuel : ℕ, solution negStepParams originInit fuel = none) :=
  ⟨solution_diverges_nonpos_step zeroStepParams originInit 0 0 1 rfl
      (by norm_num) rfl rfl (by norm_num),
   solution_diverges_nonpos_step negStepParams originInit (-1) 0 1 rfl
      (by norm_num) rfl rfl (by norm_num)⟩

/-- Claim C3: for all (rational) inputs and parameter values, the
derivative functions compute exactly
`dRdt = alpha_r*(1 - q) + gamma_r0*rob - gamma_r2*rob^3 - beta_a*ada` and
`dAdt = alpha_a*q - gamma_a*ada + beta_r*rob` (the code's `rob*rob*rob` is
`rob^3`); they are pure functions of the parameter fields and their two
arguments. -/
theorem c3_derivative_formulas (p : ModelParameters)
    (rob ada ar aa qv gr0 gr2 ga ba br : ℚ)
    (h1 : p.alpha_r = JSNum.num ar) (h2 : p.alpha_a = JSNum.num aa)
    (h3 : p.q = JSNum.num qv) (h4 : p.gamma_r0 = JSNum.num gr0)
    (h5 : p.gamma_r2 = JSNum.num gr2) (h6 : p.gamma_a = JSNum.num ga)
    (h7 : p.beta_a = JSNum.num ba) (h8 : p.beta_r = JSNum.num br) :
    computeDrDt p (JSNum.num rob) (JSNum.num ada) =
      JSNum.num (ar * (1 - qv) + gr0 * rob - gr2 * rob ^ 3 - ba * ada) ∧
    computeDaDt p (JSNum.num rob) (JSNum.num ada) =
      JSNum.num (aa * qv - ga * ada + br * rob) := by
  constructor
  · simp only [computeDrDt, h1, h3, h4, h5, h7, JSNum.add_def, JSNum.mul_def,
      JSNum.sub_def, JSNum.jadd, JSNum.jmul, JSNum.jsub, JSNum.ofNat_def]
    exact congrArg JSNum.num (by ring)
  · simp only [computeDaDt, h2, h3, h6, h8, JSNum.add_def, JSNum.mul_def,
      JSNum.sub_def, JSNum.jadd, JSNum.jmul, JSNum.jsub, JSNum.ofNat_def]

/-- Witness for C3 at the spec's §8 scenario parameters with
`rob = 2, ada = 3`. -/
theorem c3_derivative_formulas_witness :
    computeDrDt scenarioParams (JSNum.num 2) (JSNum.num 3) =
      JSNum.num (1 * (1 - 1/2) + 0 * 2 - 0 * 2 ^ 3 - 0 * 3) ∧
    computeDaDt scenarioParams (JSNum.num 2) (JSNum.num 3) =
      JSNum.num (1 * (1/2) - 0 * 3 + 0 * 2) :=
  c3_derivative_formulas scenarioParams 2 3 1 1 (1/2) 0 0 0 0 0
    rfl rfl rfl rfl rfl rfl rfl rfl

/-- Claim C8: the computation is deterministic with no residual state
between runs.  In the embedding, an invocation of the `solution` getter is a
pure function of the solver's stored `params` and `initial_values` (the
getter reads nothing else — no globals, no clock, no randomness — per the
source), and it returns the solver state unchanged; hence calling it again
on the post-call state returns the identical (bit-identical in the model)
three sequences. -/
theorem c8_deterministic_repeated_calls (s : Solver) (fuel : ℕ) :
    (solutionCall (solutionCall s fuel).2 fuel).1 = (solutionCall s fuel).1 :=
  rfl

/-- Claim C9: the `solution` getter has no side effect on the solver's
stored state: the post-call `params` and `initial_values` are the pre-call
ones.  (In the source the getter assigns only to local variables and to the
freshly created `solution` object, which is returned by value and never
retained by the solver, so the solver also cannot mutate a returned
trajectory after return.) -/
theorem c9_solution_preserves_state (s : Solver) (fuel : ℕ) :
    (solutionCall s fuel).2.params = s.params ∧
    (solutionCall s fuel).2.initial_values = s.initial_values :=
  ⟨rfl, rfl⟩

/-- Claim C10: with `time_step = NaN` and a start time not beyond `end`
(so the first guard check passes), no validation intercepts the NaN: the
loop records the initial sample, the time update `t + NaN` produces NaN,
the next guard check `NaN <= end` is false, and the getter returns the
single-sample trajectory `(robustness0, adaptivity0, initial_time)` after
exactly one loop iteration — it does not loop forever. -/
theorem c10_nan_time_step (p : ModelParameters) (init : InitialState)
    (fuel : ℕ) (hstep : p.time_step = JSNum.nan)
    (hle : JSNum.jle init.time p.«end» = true) :
    solution p init (fuel + 2) =
      some ⟨[init.robustness], [init.adaptivity], [init.time]⟩ := by
  unfold solution
  rw [show fuel + 2 = (fuel + 1) + 1 from rfl,
    eulerLoop_enter p (fuel + 1) _ _ _ _ hle, hstep, JSNum.mul_nan,
    JSNum.mul_nan, JSNum.add_nan, JSNum.add_nan, JSNum.add_nan,
    eulerLoop_exit p fuel _ _ _ _ (JSNum.nan_jle _)]
  rfl

/-- Witness for C10: `time_step = NaN`, `end = 1`, initial state
`(0, 0, 0)`: the run with fuel 2 returns the single initial sample. -/
theorem c10_nan_time_step_witness :
    JSNum.jle originInit.time nanStepParams.«end» = true ∧
    solution nanStepParams originInit 2 = some ⟨[0], [0], [0]⟩ :=
  ⟨by norm_num [originInit, nanStepParams, JSNum.jle, JSNum.ofNat_def],
   c10_nan_time_step nanStepParams originInit 0 rfl
     (by norm_num [originInit, nanStepParams, JSNum.jle, JSNum.ofNat_def])⟩

/-- Claim C2: for every run with a positive `time_step` and every step index
of the returned trajectory, the next sample is the simultaneous
(Jacobi-style) explicit Euler update of the previous one:
`robustness[i+1] = robustness[i] + dRdt(robustness[i], adaptivity[i]) * time_step`
and
`adaptivity[i+1] = adaptivity[i] + dAdt(robustness[i], adaptivity[i]) * time_step`,
both derivatives being evaluated at the pre-update snapshot. -/
theorem c2_simultaneous_euler_update (p : ModelParameters)
    (init : InitialState) (dt : ℚ) (fuel i : ℕ) (traj : Trajectory)
    (ri ai ri' ai' : JSNum)
    (hstep : p.time_step = JSNum.num dt) (hdt : 0 < dt)
    (hrun : solution p init fuel = some traj)
    (hri : traj.robustness.get? i = some ri)
    (hai : traj.adaptivity.get? i = some ai)
    (hri' : traj.robustness.get? (i + 1) = some ri')
    (hai' : traj.adaptivity.get? (i + 1) = some ai') :
    ri' = ri + computeDrDt p ri ai * p.time_step ∧
    ai' = ai + computeDaDt p ri ai * p.time_step := by
  have htraj := (solution_char p init dt hstep hdt).2 fuel traj hrun
  subst htraj
  cases hits : init.time with
  | nan =>
    rw [solTraj_eq_nan p init dt hits] at hri
    simp [Trajectory.empty] at hri
  | num t0 =>
    rw [solTraj_eq_num p init dt t0 hits] at hri hai hri' hai'
    rw [trajFrom_robustness_get?] at hri hri'
    rw [trajFrom_adaptivity_get?] at hai hai'
    have hlt' : i + 1 < iterCount p init dt := by
      by_contra hcon
      rw [if_neg hcon] at hri'
      cases hri'
    have hlt : i < iterCount p init dt := by omega
    rw [if_pos hlt] at hri hai
    rw [if_pos hlt'] at hri' hai'
    have eri := Option.some.inj hri
    have eai := Option.some.inj hai
    have eri' := Option.some.inj hri'
    have eai' := Option.some.inj hai'
    subst eri eai eri' eai'
    rw [Function.iterate_succ_apply']
    exact ⟨rfl, rfl⟩

/-- Witness for C2 at the spec's §8 scenario, step index 0: the second
samples `0.5` arise from the first samples `(0, 0)` by one Euler update. -/
theorem c2_simultaneous_euler_update_witness :
    JSNum.num (1/2) =
      0 + computeDrDt scenarioParams 0 0 * scenarioParams.time_step ∧
    JSNum.num (1/2) =
      0 + computeDaDt scenarioParams 0 0 * scenarioParams.time_step :=
  c2_simultaneous_euler_update scenarioParams scenarioInit 1 4 0
    scenarioTraj 0 0 (JSNum.num (1/2)) (JSNum.num (1/2)) rfl
    (by norm_num) scenario_solution rfl rfl rfl rfl

/-- Claim C7: if the initial state is a fixed point of both derivative
functions (`dRdt(rob0, ada0) = dAdt(rob0, ada0) = 0`), then every sample of
a returned trajectory of a positive-step run equals the initial state: the
trajectory stays at the fixed point for all sampled times. -/
theorem c7_fixed_point (p : ModelParameters) (init : InitialState) (dt : ℚ)
    (fuel : ℕ) (traj : Trajectory)
    (hstep : p.time_step = JSNum.num dt) (hdt : 0 < dt)
    (hdr : computeDrDt p init.robustness init.adaptivity = JSNum.num 0)
    (hda : computeDaDt p init.robustness init.adaptivity = JSNum.num 0)
    (hrun : solution p init fuel = some traj) :
    (∀ x ∈ traj.robustness, x = init.robustness) ∧
    (∀ y ∈ traj.adaptivity, y = init.adaptivity) := by
  have htraj := (solution_char p init dt hstep hdt).2 fuel traj hrun
  subst htraj
  have hfix : eulerStep p (init.robustness, init.adaptivity) =
      (init.robustness, init.adaptivity) := by
    unfold eulerStep
    simp [hdr, hda, hstep, JSNum.num_mul, JSNum.add_num_zero]
  cases hits : init.time with
  | nan =>
    rw [solTraj_eq_nan p init dt hits]
    simp [Trajectory.empty]
  | num t0 =>
    rw [solTraj_eq_num p init dt t0 hits]
    constructor
    · intro x hx
      simp only [trajFrom, List.mem_map] at hx
      obtain ⟨k, -, hk⟩ := hx
      rw [Function.iterate_fixed hfix] at hk
      exact hk.symm
    · intro y hy
      simp only [trajFrom, List.mem_map] at hy
      obtain ⟨k, -, hk⟩ := hy
      rw [Function.iterate_fixed hfix] at hk
      exact hk.symm

/-- Witness for C7: with all coefficients zero, `(3, 4)` is a fixed point
and the three-sample run stays there. -/
theorem c7_fixed_point_witness :
    (∀ x ∈ fixedTraj.robustness, x = fixedInit.robustness) ∧
    (∀ y ∈ fixedTraj.adaptivity, y = fixedInit.adaptivity) :=
  c7_fixed_point fixedParams fixedInit 1 4 fixedTraj rfl (by norm_num)
    (by norm_num [computeDrDt, fixedParams, fixedInit, JSNum.add_def,
      JSNum.mul_def, JSNum.sub_def, JSNum.jadd, JSNum.jmul, JSNum.jsub,
      JSNum.ofNat_def])
    (by norm_num [computeDaDt, fixedParams, fixedInit, JSNum.add_def,
      JSNum.mul_def, JSNum.sub_def, JSNum.jadd, JSNum.jmul, JSNum.jsub,
      JSNum.ofNat_def])
    fixed_solution

/-- Claim C4: for every positive-rational-step run, the returned
trajectory's three sequences have equal length; whenever the (rational)
start time is at most the (rational) end time the trajectory is non-empty;
consecutive time samples differ by exactly `time_step` (hence time is
strictly increasing); and the last time sample `t` satisfies
`t <= end < t + time_step`. -/
theorem c4_trajectory_invariants (p : ModelParameters) (init : InitialState)
    (dt : ℚ) (fuel : ℕ) (traj : Trajectory)
    (hstep : p.time_step = JSNum.num dt) (hdt : 0 < dt)
    (hrun : solution p init fuel = some traj) :
    (traj.robustness.length = traj.time.length ∧
     traj.adaptivity.length = traj.time.length) ∧
    ∀ t0 e : ℚ, init.time = JSNum.num t0 → p.«end» = JSNum.num e →
      ((t0 ≤ e → traj.time ≠ []) ∧
       (∀ (i : ℕ) (ti ti' : JSNum), traj.time.get? i = some ti →
          traj.time.get? (i + 1) = some ti' →
          ti' = ti + p.time_step ∧
          ∃ q1 q2 : ℚ, ti = JSNum.num q1 ∧ ti' = JSNum.num q2 ∧ q1 < q2) ∧
       (∀ (i : ℕ) (ti : JSNum), traj.time.get? i = some ti →
          traj.time.get? (i + 1) = none →
          ∃ tl : ℚ, ti = JSNum.num tl ∧ tl ≤ e ∧ e < tl + dt)) := by
  have htraj := (solution_char p init dt hstep hdt).2 fuel traj hrun
  subst htraj
  constructor
  · cases hits : init.time with
    | nan =>
      rw [solTraj_eq_nan p init dt hits]
      exact ⟨rfl, rfl⟩
    | num t0 =>
      rw [solTraj_eq_num p init dt t0 hits]
      obtain ⟨l1, l2, l3⟩ := trajFrom_lengths p init.robustness
        init.adaptivity t0 dt (iterCount p init dt)
      rw [l1, l2, l3]
      exact ⟨rfl, rfl⟩
  · intro t0 e hits hend
    rw [solTraj_eq_num p init dt t0 hits]
    by_cases hte : t0 ≤ e
    · obtain ⟨hg1, hg2⟩ := guard_facts t0 e dt hdt hte
      have hiter : iterCount p init dt =
          (Int.floor ((e - t0) / dt)).toNat + 1 := by
        simp [iterCount, hits, hend, hte]
      refine ⟨?_, ?_, ?_⟩
      · intro _
        have hlen := (trajFrom_lengths p init.robustness init.adaptivity
          t0 dt (iterCount p init dt)).2.2
        intro hnil
        rw [hnil] at hlen
        simp only [List.length_nil] at hlen
        omega
      · intro i ti ti' h1 h2
        rw [trajFrom_time_get?] at h1 h2
        have hlt' : i + 1 < iterCount p init dt := by
          by_contra hcon
          rw [if_neg hcon] at h2
          cases h2
        have hlt : i < iterCount p init dt := by omega
        rw [if_pos hlt] at h1
        rw [if_pos hlt'] at h2
        have e1 := Option.some.inj h1
        have e2 := Option.some.inj h2
        subst e1 e2
        constructor
        · rw [hstep, JSNum.num_add]
          exact congrArg JSNum.num (by push_cast; ring)
        · refine ⟨t0 + (i : ℚ) * dt, t0 + ((i + 1 : ℕ) : ℚ) * dt, rfl, rfl,
            ?_⟩
          have hexp : ((i : ℚ) + 1) * dt = (i : ℚ) * dt + dt := by ring
          push_cast
          linarith
      · intro i ti h1 h2
        rw [trajFrom_time_get?] at h1 h2
        have hlt : i < iterCount p init dt := by
          by_contra hcon
          rw [if_neg hcon] at h1
          cases h1
        have hge : ¬ (i + 1 < iterCount p init dt) := by
          intro hcon
          rw [if_pos hcon] at h2
          cases h2
        rw [if_pos hlt] at h1
        have e1 := Option.some.inj h1
        subst e1
        refine ⟨t0 + (i : ℚ) * dt, rfl, hg1 i (by omega), ?_⟩
        have hN : (((Int.floor ((e - t0) / dt)).toNat + 1 : ℕ) : ℚ) =
            (i : ℚ) + 1 := by
          have hieq : (Int.floor ((e - t0) / dt)).toNat + 1 = i + 1 := by
            omega
          exact_mod_cast hieq
        have hexp : t0 + (((Int.floor ((e - t0) / dt)).toNat + 1 : ℕ) : ℚ)
            * dt = t0 + (i : ℚ) * dt + dt := by
          rw [hN]
          ring
        rw [hexp] at hg2
        exact hg2
    · have hiter : iterCount p init dt = 0 := by
        simp [iterCount, hits, hend, hte]
      refine ⟨fun h => absurd h hte, ?_, ?_⟩
      · intro i ti ti' h1 _
        rw [trajFrom_time_get?, hiter] at h1
        simp at h1
      · intro i ti h1 _
        rw [trajFrom_time_get?, hiter] at h1
        simp at h1

/-- Witness for C4 at the spec's §8 scenario (`dt = 1`, three samples). -/
theorem c4_trajectory_invariants_witness :
    ((scenarioTraj.robustness.length = scenarioTraj.time.length ∧
      scenarioTraj.adaptivity.length = scenarioTraj.time.length) ∧
     ∀ t0 e : ℚ, scenarioInit.time = JSNum.num t0 →
        scenarioParams.«end» = JSNum.num e →
        ((t0 ≤ e → scenarioTraj.time ≠ []) ∧
         (∀ (i : ℕ) (ti ti' : JSNum), scenarioTraj.time.get? i = some ti →
            scenarioTraj.time.get? (i + 1) = some ti' →
            ti' = ti + scenarioParams.time_step ∧
            ∃ q1 q2 : ℚ, ti = JSNum.num q1 ∧ ti' = JSNum.num q2 ∧ q1 < q2) ∧
         (∀ (i : ℕ) (ti : JSNum), scenarioTraj.time.get? i = some ti →
            scenarioTraj.time.get? (i + 1) = none →
            ∃ tl : ℚ, ti = JSNum.num tl ∧ tl ≤ e ∧ e < tl + 1))) :=
  c4_trajectory_invariants scenarioParams scenarioInit 1 4 scenarioTraj rfl
    (by norm_num) scenario_solution

/-- Claim C5: for a positive-rational-step run, `end = initial time` yields
exactly the one sample `(robustness0, adaptivity0, initial_time)` (the run
with fuel 2 returns it, and every terminating run agrees), and
`end < initial time` terminates without error with a trajectory of length
zero (the convention the code implements): the loop never executes a
negative-duration step. -/
theorem c5_boundary_cases (p : ModelParameters) (init : InitialState)
    (dt t0 e : ℚ)
    (hstep : p.time_step = JSNum.num dt) (hdt : 0 < dt)
    (hits : init.time = JSNum.num t0) (hend : p.«end» = JSNum.num e) :
    (e = t0 →
      solution p init 2 =
        some ⟨[init.robustness], [init.adaptivity], [init.time]⟩ ∧
      ∀ (fuel : ℕ) (traj : Trajectory), solution p init fuel = some traj →
        traj = ⟨[init.robustness], [init.adaptivity], [init.time]⟩) ∧
    (e < t0 →
      solution p init 1 = some Trajectory.empty ∧
      ∀ (fuel : ℕ) (traj : Trajectory), solution p init fuel = some traj →
        traj = Trajectory.empty) := by
  obtain ⟨hex, huniq⟩ := solution_char p init dt hstep hdt
  constructor
  · intro he
    subst he
    have hiter : iterCount p init dt = 1 := by
      simp [iterCount, hits, hend]
    have hsingle : solTraj p init dt =
        ⟨[init.robustness], [init.adaptivity], [init.time]⟩ := by
      rw [solTraj_eq_num p init dt e hits, hiter, hits,
        show (1 : ℕ) = 0 + 1 from rfl, trajFrom_succ, trajFrom_zero,
        Trajectory.cat_empty_right]
    constructor
    · rw [hiter, hsingle] at hex
      exact hex
    · intro fuel traj htr
      exact (huniq fuel traj htr).trans hsingle
  · intro he
    have hiter : iterCount p init dt = 0 := by
      simp [iterCount, hits, hend, not_le.2 he]
    have hempty : solTraj p init dt = Trajectory.empty := by
      rw [solTraj_eq_num p init dt t0 hits, hiter, trajFrom_zero]
    constructor
    · rw [hiter, hempty] at hex
      exact hex
    · intro fuel traj htr
      exact (huniq fuel traj htr).trans hempty

/-- Witness for C5 with `end = initial time = 0` (and the vacuous
`end < initial time` branch) at step 1. -/
theorem c5_boundary_cases_witness :
    ((0 : ℚ) = 0 →
      solution boundaryParams originInit 2 =
        some ⟨[originInit.robustness], [originInit.adaptivity],
          [originInit.time]⟩ ∧
      ∀ (fuel : ℕ) (traj : Trajectory),
        solution boundaryParams originInit fuel = some traj →
        traj = ⟨[originInit.robustness], [originInit.adaptivity],
          [originInit.time]⟩) ∧
    ((0 : ℚ) < 0 →
      solution boundaryParams originInit 1 = some Trajectory.empty ∧
      ∀ (fuel : ℕ) (traj : Trajectory),
        solution boundaryParams originInit fuel = some traj →
        traj = Trajectory.empty) :=
  c5_boundary_cases boundaryParams originInit 1 0 0 rfl (by norm_num)
    rfl rfl

/-- Claim C6: every positive-rational-step run of the solution operation
terminates, and whenever the start and end times are rationals with
`t0 ≤ e`, the number of recorded samples — one per loop iteration — is at
most `(e - t0)/dt + 1`. -/
theorem c6_terminates_within_bound (p : ModelParameters)
    (init : InitialState) (dt : ℚ)
    (hstep : p.time_step = JSNum.num dt) (hdt : 0 < dt) :
    ∃ (fuel : ℕ) (traj : Trajectory), solution p init fuel = some traj ∧
      ∀ t0 e : ℚ, init.time = JSNum.num t0 → p.«end» = JSNum.num e →
        t0 ≤ e → (traj.time.length : ℚ) ≤ (e - t0) / dt + 1 := by
  refine ⟨iterCount p init dt + 1, solTraj p init dt,
    (solution_char p init dt hstep hdt).1, ?_⟩
  intro t0 e hits hend hte
  rw [solTraj_eq_num p init dt t0 hits,
    (trajFrom_lengths p init.robustness init.adaptivity t0 dt
      (iterCount p init dt)).2.2]
  have hiter : iterCount p init dt =
      (Int.floor ((e - t0) / dt)).toNat + 1 := by
    simp [iterCount, hits, hend, hte]
  rw [hiter]
  have hx : (0 : ℚ) ≤ (e - t0) / dt := div_nonneg (by linarith) hdt.le
  have hfl : ((Int.floor ((e - t0) / dt)).toNat : ℤ) =
      Int.floor ((e - t0) / dt) :=
    Int.toNat_of_nonneg (Int.floor_nonneg.2 hx)
  have hflq : ((Int.floor ((e - t0) / dt)).toNat : ℚ) =
      ((Int.floor ((e - t0) / dt) : ℤ) : ℚ) := by
    exact_mod_cast hfl
  have hle := Int.floor_le ((e - t0) / dt)
  push_cast
  rw [hflq]
  linarith

/-- Witness for C6 at the spec's §8 scenario. -/
theorem c6_terminates_within_bound_witness :
    ∃ (fuel : ℕ) (traj : Trajectory),
      solution scenarioParams scenarioInit fuel = some traj ∧
      ∀ t0 e : ℚ, scenarioInit.time = JSNum.num t0 →
        scenarioParams.«end» = JSNum.num e → t0 ≤ e →
        (traj.time.length : ℚ) ≤ (e - t0) / 1 + 1 :=
  c6_terminates_within_bound scenarioParams scenarioInit 1 rfl (by norm_num)
